import Mathlib

/-!
# Sparse volumetrics runtime: module life cycle and scene proxy

A shallow embedding of `FVolumeRuntimeModule` (`VolumeRuntimeModule.cpp`) and of
`FVdbSceneProxy` (`Rendering/VdbSceneProxy.h`).

Pointers and shared pointers are `Option Handle` (`none` is the null pointer), stateful
member functions pass the state explicitly, and dereferencing a null pointer is the
fault `Fault.nullDereference`.  Calls that leave the translation unit (`Init`, `Release`,
`NewExtension`, `UnregisterVolumeTrackHandler`) are recorded, in order, in a trace.
-/

namespace UnrealVdb

/-! ## Module life cycle (`VolumeRuntimeModule.cpp`) -/

/-- Identity of a heap object. -/
abbrev Handle := Nat

/-- The only way the embedded code can go wrong. -/
inductive Fault where
  | nullDereference
  deriving DecidableEq, Repr

/-- The two scene view extension classes the module owns. -/
inductive ExtensionClass where
  | FVdbRendering
  | FVdbResearchRendering
  deriving DecidableEq, Repr

/-- Calls made by the module that are observable from outside it.  `Init` and `Release`
carry the static class of the pointer they are called through and the object they are
called on. -/
inductive Event where
  | UnregisterVolumeTrackHandler
  | NewExtension (c : ExtensionClass) (h : Handle)
  | Init (c : ExtensionClass) (h : Handle)
  | Release (c : ExtensionClass) (h : Handle)
  deriving DecidableEq, Repr

/-- The two data members of `FVolumeRuntimeModule` that the embedded functions use:
`TRenderExtensionPtr VdbRenderExtension` and `TRenderResearchPtr VdbRenderResearchMgr`. -/
structure FVolumeRuntimeModule where
  VdbRenderExtension : Option Handle
  VdbRenderResearchMgr : Option Handle
  deriving DecidableEq, Repr

/-- The module together with the allocator and the trace of observable calls. -/
structure World where
  Module : FVolumeRuntimeModule
  nextHandle : Handle
  trace : List Event
  deriving DecidableEq, Repr

/-- A freshly constructed module: both shared pointers are default constructed (null)
and nothing has been called yet. -/
def freshWorld : World :=
  { Module := { VdbRenderExtension := none, VdbRenderResearchMgr := none },
    nextHandle := 0,
    trace := [] }

/-- Record one observable call. -/
def World.emit (w : World) (e : Event) : World :=
  { w with trace := w.trace ++ [e] }

/-- `TSharedPtr::IsValid()`, also the shared pointer's conversion to `bool`. -/
def IsValid (p : Option Handle) : Bool := p.isSome

/-- `FSceneViewExtensions::NewExtension<T>()`: allocates a new object of class `c` and
returns a valid shared pointer to it. -/
def NewExtension (c : ExtensionClass) (w : World) : Option Handle × World :=
  (some w.nextHandle,
    { w with nextHandle := w.nextHandle + 1,
             trace := w.trace ++ [Event.NewExtension c w.nextHandle] })

/-- `p->Init()` through a pointer of static class `c`.  The body of `Init` is outside
the embedded files; the call is recorded and the module's members are untouched. -/
def callInit (c : ExtensionClass) (p : Option Handle) (w : World) : Except Fault World :=
  match p with
  | none => .error .nullDereference
  | some h => .ok (w.emit (.Init c h))

/-- `p->Release()` through a pointer of static class `c`, recorded like `callInit`. -/
def callRelease (c : ExtensionClass) (p : Option Handle) (w : World) : Except Fault World :=
  match p with
  | none => .error .nullDereference
  | some h => .ok (w.emit (.Release c h))

/-- `FVolumeRuntimeModule::ShutdownModule`. -/
def ShutdownModule (w : World) : Except Fault World := do
  let w1 := w.emit .UnregisterVolumeTrackHandler
  let w2 ← if IsValid w1.Module.VdbRenderExtension
    then callRelease .FVdbRendering w1.Module.VdbRenderExtension w1
    else pure w1
  let w3 ← if IsValid w2.Module.VdbRenderResearchMgr
    then callRelease .FVdbResearchRendering w2.Module.VdbRenderResearchMgr w2
    else pure w2
  pure w3

/-- `FVolumeRuntimeModule::GetOrCreateRenderExtension`. -/
def GetOrCreateRenderExtension (w : World) : Except Fault (Option Handle × World) :=
  if !IsValid w.Module.VdbRenderExtension then do
    let (p, w1) := NewExtension .FVdbRendering w
    let w2 := { w1 with Module := { w1.Module with VdbRenderExtension := p } }
    let w3 ← callInit .FVdbRendering w2.Module.VdbRenderExtension w2
    pure (w3.Module.VdbRenderExtension, w3)
  else
    pure (w.Module.VdbRenderExtension, w)

/-- `FVolumeRuntimeModule::GetOrCreateRenderResearchMgr`. -/
def GetOrCreateRenderResearchMgr (w : World) : Except Fault (Option Handle × World) :=
  if !IsValid w.Module.VdbRenderResearchMgr then do
    let (p, w1) := NewExtension .FVdbResearchRendering w
    let w2 := { w1 with Module := { w1.Module with VdbRenderResearchMgr := p } }
    let w3 ← callInit .FVdbResearchRendering w2.Module.VdbRenderResearchMgr w2
    pure (w3.Module.VdbRenderResearchMgr, w3)
  else
    pure (w.Module.VdbRenderResearchMgr, w)

/-- `n` consecutive calls of an accessor; the returned pointers are collected in call
order. -/
def callRepeatedly (f : World → Except Fault (Option Handle × World)) :
    Nat → World → Except Fault (List (Option Handle) × World)
  | 0, w => .ok ([], w)
  | n + 1, w =>
    match f w with
    | .error e => .error e
    | .ok (p, w1) =>
      match callRepeatedly f n w1 with
      | .error e => .error e
      | .ok (ps, w2) => .ok (p :: ps, w2)

/-- The member functions a client of the module can call. -/
inductive Call where
  | GetOrCreateRenderExtension
  | GetOrCreateRenderResearchMgr
  | ShutdownModule
  deriving DecidableEq, Repr

/-- One call on the module; the pointer an accessor returns is dropped. -/
def execCall : Call → World → Except Fault World
  | .GetOrCreateRenderExtension, w => (GetOrCreateRenderExtension w).map Prod.snd
  | .GetOrCreateRenderResearchMgr, w => (GetOrCreateRenderResearchMgr w).map Prod.snd
  | .ShutdownModule, w => ShutdownModule w

/-- A finite sequence of calls, first call first. -/
def runCalls : List Call → World → Except Fault World
  | [], w => .ok w
  | c :: cs, w =>
    match execCall c w with
    | .error e => .error e
    | .ok w1 => runCalls cs w1

/-- Objects of class `c` constructed in a trace, in order. -/
def constructed (c : ExtensionClass) (t : List Event) : List Handle :=
  t.filterMap fun e =>
    match e with
    | .NewExtension c1 h => if c1 = c then some h else none
    | _ => none

/-- Objects on which `Init` was called through a pointer of class `c`, once per call. -/
def initCalls (c : ExtensionClass) (t : List Event) : List Handle :=
  t.filterMap fun e =>
    match e with
    | .Init c1 h => if c1 = c then some h else none
    | _ => none

/-- Objects on which `Release` was called through a pointer of class `c`, once per call. -/
def releaseCalls (c : ExtensionClass) (t : List Event) : List Handle :=
  t.filterMap fun e =>
    match e with
    | .Release c1 h => if c1 = c then some h else none
    | _ => none

/-- The `Release` call `ShutdownModule` makes through a pointer: none when it is null. -/
def releaseIfSet (c : ExtensionClass) (p : Option Handle) : List Event :=
  match p with
  | none => []
  | some h => [.Release c h]

/-- The object an event is about, if any. -/
def Event.object : Event → Option Handle
  | .UnregisterVolumeTrackHandler => none
  | .NewExtension _ h => some h
  | .Init _ h => some h
  | .Release _ h => some h

/-- The part of a trace that concerns the object `h`: its construction and every call
made on it, in order. -/
def eventsOn (h : Handle) (t : List Event) : List Event :=
  t.filter fun e => e.object = some h

/-- Number of `Init` calls made on the object `h`, through a pointer of any class. -/
def initsOn (h : Handle) (t : List Event) : Nat :=
  t.countP fun e =>
    match e with
    | .Init _ h1 => h1 = h
    | _ => false

/-- The module's pointer to its extension of class `c`. -/
def FVolumeRuntimeModule.pointerTo (m : FVolumeRuntimeModule) : ExtensionClass → Option Handle
  | .FVdbRendering => m.VdbRenderExtension
  | .FVdbResearchRendering => m.VdbRenderResearchMgr

/-- Every `Release` in the trace comes after an `Init` on the same object through the
same class of pointer. -/
def ReleaseAfterInit (t : List Event) : Prop :=
  ∀ (pre : List Event) (c : ExtensionClass) (h : Handle),
    pre ++ [Event.Release c h] <+: t → Event.Init c h ∈ pre

/-- What holds of every state the module reaches from `freshWorld`. -/
structure Reachable (w : World) : Prop where
  unset : ∀ c, w.Module.pointerTo c = none →
    constructed c w.trace = [] ∧ initCalls c w.trace = []
  set : ∀ c h, w.Module.pointerTo c = some h →
    constructed c w.trace = [h] ∧ initCalls c w.trace = [h] ∧ h < w.nextHandle
  distinct : ∀ a b, w.Module.VdbRenderExtension = some a →
    w.Module.VdbRenderResearchMgr = some b → a ≠ b
  ordered : ReleaseAfterInit w.trace

/-! ## Scene proxy (`Rendering/VdbSceneProxy.h`) -/

/-- `INDEX_NONE`, the engine's "not found" index. -/
def INDEX_NONE : Int := -1

/-- The engine's `TArray<T>`: its elements in index order.  Capacity is not modelled. -/
structure TArray (α : Type) where
  Data : List α
  deriving DecidableEq, Repr

/-- Linear scan behind `TArray::Find`, `i` being the index of the head of the list. -/
def TArray.findFrom {α : Type} [DecidableEq α] (Item : α) : List α → Nat → Int
  | [], _ => INDEX_NONE
  | x :: xs, i => if x = Item then (i : Int) else TArray.findFrom Item xs (i + 1)

/-- `TArray::Find(Item)`: the index of the first element equal to `Item`, or
`INDEX_NONE`. -/
def TArray.Find {α : Type} [DecidableEq α] (a : TArray α) (Item : α) : Int :=
  TArray.findFrom Item a.Data 0

/-- `TArray::Empty(Slack)`: removes every element; `Slack` only sizes the allocation. -/
def TArray.Empty {α : Type} (_a : TArray α) (_Slack : Nat) : TArray α :=
  { Data := [] }

/-- `TArray::Add(Item)`: appends at the end. -/
def TArray.Add {α : Type} (a : TArray α) (Item : α) : TArray α :=
  { Data := a.Data ++ [Item] }

/-- A `const FSceneView*`; views are compared by address. -/
abbrev FSceneViewPtr := Option Handle

/-- The data members of `FVdbSceneProxy`.  The engine's value types `float`, `FVector3f`
and `FMatrix44f` are parameters: the embedded code only copies them. -/
structure FVdbSceneProxy (float FVector3f FMatrix44f : Type) where
  VdbRenderExtension : Option Handle
  VdbComponent : Option Handle
  Material : Option Handle
  LevelSet : Bool
  DensityMultiplier : float
  StepMultiplier : float
  RenderBuffer : Option Handle
  IndexMin : FVector3f
  IndexSize : FVector3f
  IndexToLocal : FMatrix44f
  VisibleViews : TArray FSceneViewPtr
  deriving DecidableEq, Repr

/-- The engine's `FPrimitiveViewRelevance`, reduced to the flag that says whether the
primitive is drawn in the view. -/
structure FPrimitiveViewRelevance where
  bDrawRelevance : Bool
  deriving DecidableEq, Repr

/-- One draw submission handed to the mesh element collector. -/
structure FMeshBatch (float FVector3f FMatrix44f : Type) where
  View : FSceneViewPtr
  IndexToLocal : FMatrix44f
  IndexMin : FVector3f
  IndexSize : FVector3f
  DensityMultiplier : float
  StepMultiplier : float
  LevelSet : Bool
  RenderBuffer : Handle
  deriving DecidableEq, Repr

/-- Reading through a pointer. -/
def deref (p : Option Handle) : Except Fault Handle :=
  match p with
  | none => .error .nullDereference
  | some h => .ok h

section Proxy

variable {float FVector3f FMatrix44f : Type}

/-- `FVdbSceneProxy::GetIndexMin`. -/
def FVdbSceneProxy.GetIndexMin (self : FVdbSceneProxy float FVector3f FMatrix44f) :
    FVector3f := self.IndexMin

/-- `FVdbSceneProxy::GetIndexSize`. -/
def FVdbSceneProxy.GetIndexSize (self : FVdbSceneProxy float FVector3f FMatrix44f) :
    FVector3f := self.IndexSize

/-- `FVdbSceneProxy::GetStepMultiplier`. -/
def FVdbSceneProxy.GetStepMultiplier (self : FVdbSceneProxy float FVector3f FMatrix44f) :
    float := self.StepMultiplier

/-- `FVdbSceneProxy::GetDensityMultiplier`. -/
def FVdbSceneProxy.GetDensityMultiplier (self : FVdbSceneProxy float FVector3f FMatrix44f) :
    float := self.DensityMultiplier

/-- `FVdbSceneProxy::GetIndexToLocal`. -/
def FVdbSceneProxy.GetIndexToLocal (self : FVdbSceneProxy float FVector3f FMatrix44f) :
    FMatrix44f := self.IndexToLocal

/-- `FVdbSceneProxy::GetMaterial`. -/
def FVdbSceneProxy.GetMaterial (self : FVdbSceneProxy float FVector3f FMatrix44f) :
    Option Handle := self.Material

/-- `FVdbSceneProxy::GetRenderResource`. -/
def FVdbSceneProxy.GetRenderResource (self : FVdbSceneProxy float FVector3f FMatrix44f) :
    Option Handle := self.RenderBuffer

/-- `FVdbSceneProxy::IsLevelSet`. -/
def FVdbSceneProxy.IsLevelSet (self : FVdbSceneProxy float FVector3f FMatrix44f) :
    Bool := self.LevelSet

/-- `FVdbSceneProxy::ResetVisibility`: `VisibleViews.Empty(4)`. -/
def FVdbSceneProxy.ResetVisibility (self : FVdbSceneProxy float FVector3f FMatrix44f) :
    FVdbSceneProxy float FVector3f FMatrix44f :=
  { self with VisibleViews := self.VisibleViews.Empty 4 }

/-- `FVdbSceneProxy::IsVisible`: `VisibleViews.Find(View) != INDEX_NONE`.  `VisibleViews`
is a `mutable` member, so this `const` member function also returns the proxy it leaves
behind. -/
def FVdbSceneProxy.IsVisible (self : FVdbSceneProxy float FVector3f FMatrix44f)
    (View : FSceneViewPtr) : Bool × FVdbSceneProxy float FVector3f FMatrix44f :=
  (self.VisibleViews.Find View != INDEX_NONE, self)

/-- Modelled from the spec: the body of `FVdbSceneProxy::Update`, which the header only
declares.  It "replaces the proxy's VolumeTransform and current RenderBuffer reference";
the other members are left as they are. -/
def FVdbSceneProxy.Update (self : FVdbSceneProxy float FVector3f FMatrix44f)
    (IndexToLocal : FMatrix44f) (IndexMin IndexSize : FVector3f)
    (RenderBuffer : Option Handle) : FVdbSceneProxy float FVector3f FMatrix44f :=
  { self with
    IndexToLocal := IndexToLocal,
    IndexMin := IndexMin,
    IndexSize := IndexSize,
    RenderBuffer := RenderBuffer }

/-- Modelled from the spec: the body of `FVdbSceneProxy::GetViewRelevance`, which the
header only declares.  It "determines whether this proxy should be drawn at all for a
given view ... and appends the view to VisibilitySet as a side effect when relevant".
The engine's decision (show flags, culling) is the parameter `shouldDraw`. -/
def FVdbSceneProxy.GetViewRelevance
    (shouldDraw : FVdbSceneProxy float FVector3f FMatrix44f → FSceneViewPtr → Bool)
    (self : FVdbSceneProxy float FVector3f FMatrix44f) (View : FSceneViewPtr) :
    FPrimitiveViewRelevance × FVdbSceneProxy float FVector3f FMatrix44f :=
  let Result : FPrimitiveViewRelevance := { bDrawRelevance := shouldDraw self View }
  if Result.bDrawRelevance then
    (Result, { self with VisibleViews := self.VisibleViews.Add View })
  else
    (Result, self)

/-- `GetViewRelevance` for each view of the frame in turn; every call is returned with
the view it was made for. -/
def relevancePass
    (shouldDraw : FVdbSceneProxy float FVector3f FMatrix44f → FSceneViewPtr → Bool)
    (self : FVdbSceneProxy float FVector3f FMatrix44f) :
    List FSceneViewPtr →
      List (FSceneViewPtr × FPrimitiveViewRelevance) ×
        FVdbSceneProxy float FVector3f FMatrix44f
  | [] => ([], self)
  | View :: Views =>
    let r := FVdbSceneProxy.GetViewRelevance shouldDraw self View
    let rest := relevancePass shouldDraw r.2 Views
    ((View, r.1) :: rest.1, rest.2)

/-- The visibility pass of one frame: `ResetVisibility`, then `GetViewRelevance` for each
view. -/
def visibilityPass
    (shouldDraw : FVdbSceneProxy float FVector3f FMatrix44f → FSceneViewPtr → Bool)
    (self : FVdbSceneProxy float FVector3f FMatrix44f) (Views : List FSceneViewPtr) :
    List (FSceneViewPtr × FPrimitiveViewRelevance) ×
      FVdbSceneProxy float FVector3f FMatrix44f :=
  relevancePass shouldDraw self.ResetVisibility Views

/-- The draw submissions for the views from index `ViewIndex` on: one for each view whose
bit is set in the 32-bit `VisibilityMap` and for which the proxy is visible. -/
def emitForViews (self : FVdbSceneProxy float FVector3f FMatrix44f) (buffer : Handle)
    (VisibilityMap : Nat) :
    Nat → List FSceneViewPtr → List (FMeshBatch float FVector3f FMatrix44f)
  | _, [] => []
  | ViewIndex, View :: Views =>
    let rest := emitForViews self buffer VisibilityMap (ViewIndex + 1) Views
    if (VisibilityMap % 2 ^ 32).testBit ViewIndex && (self.IsVisible View).1 then
      { View := View,
        IndexToLocal := self.GetIndexToLocal,
        IndexMin := self.GetIndexMin,
        IndexSize := self.GetIndexSize,
        DensityMultiplier := self.GetDensityMultiplier,
        StepMultiplier := self.GetStepMultiplier,
        LevelSet := self.IsLevelSet,
        RenderBuffer := buffer } :: rest
    else rest

/-- Modelled from the spec: the body of `FVdbSceneProxy::GetDynamicMeshElements`, which
the header only declares.  "For each view where the proxy is visible, emits one
mesh/compute submission parameterized by VolumeTransform, RenderParameters, and the
current RenderBuffer's GPU handle"; "if RenderBuffer is absent (not yet created) at draw
time, the proxy must skip emission silently rather than fault".  The result is the
collector after the call. -/
def FVdbSceneProxy.GetDynamicMeshElements
    (self : FVdbSceneProxy float FVector3f FMatrix44f) (Views : List FSceneViewPtr)
    (VisibilityMap : Nat) (Collector : List (FMeshBatch float FVector3f FMatrix44f)) :
    Except Fault (List (FMeshBatch float FVector3f FMatrix44f)) :=
  if self.GetRenderResource.isNone then
    pure Collector
  else do
    let buffer ← deref self.GetRenderResource
    pure (Collector ++ emitForViews self buffer VisibilityMap 0 Views)

end Proxy

/-- A proxy with no render buffer that is visible in views `1` and `2`. -/
def proxyWithoutBuffer : FVdbSceneProxy Int (Int × Int × Int) (List Int) :=
  { VdbRenderExtension := some 0,
    VdbComponent := some 1,
    Material := some 2,
    LevelSet := false,
    DensityMultiplier := 1,
    StepMultiplier := 1,
    RenderBuffer := none,
    IndexMin := (0, 0, 0),
    IndexSize := (8, 8, 8),
    IndexToLocal := [1, 0, 0, 0, 0, 1, 0, 0, 0, 0, 1, 0, 0, 0, 0, 1],
    VisibleViews := { Data := [some 1, some 2] } }

/-- A proxy whose `VisibleViews` holds view `1` twice and view `2` once. -/
def proxyWithRepeatedView : FVdbSceneProxy Int (Int × Int × Int) (List Int) :=
  { proxyWithoutBuffer with VisibleViews := { Data := [some 1, some 2, some 1] } }

/-! ### Closed forms of the three member functions -/

theorem GetOrCreateRenderExtension_null (w : World)
    (h : w.Module.VdbRenderExtension = none) :
    GetOrCreateRenderExtension w = .ok (some w.nextHandle,
      { Module := { w.Module with VdbRenderExtension := some w.nextHandle },
        nextHandle := w.nextHandle + 1,
        trace := w.trace ++ [.NewExtension .FVdbRendering w.nextHandle,
                             .Init .FVdbRendering w.nextHandle] }) := by
  simp [GetOrCreateRenderExtension, IsValid, h, NewExtension, callInit, World.emit,
    bind, Except.bind, pure, Except.pure]

theorem GetOrCreateRenderExtension_set (w : World) (x : Handle)
    (h : w.Module.VdbRenderExtension = some x) :
    GetOrCreateRenderExtension w = .ok (some x, w) := by
  simp [GetOrCreateRenderExtension, IsValid, h, pure, Except.pure]

theorem GetOrCreateRenderResearchMgr_null (w : World)
    (h : w.Module.VdbRenderResearchMgr = none) :
    GetOrCreateRenderResearchMgr w = .ok (some w.nextHandle,
      { Module := { w.Module with VdbRenderResearchMgr := some w.nextHandle },
        nextHandle := w.nextHandle + 1,
        trace := w.trace ++ [.NewExtension .FVdbResearchRendering w.nextHandle,
                             .Init .FVdbResearchRendering w.nextHandle] }) := by
  simp [GetOrCreateRenderResearchMgr, IsValid, h, NewExtension, callInit, World.emit,
    bind, Except.bind, pure, Except.pure]

theorem GetOrCreateRenderResearchMgr_set (w : World) (x : Handle)
    (h : w.Module.VdbRenderResearchMgr = some x) :
    GetOrCreateRenderResearchMgr w = .ok (some x, w) := by
  simp [GetOrCreateRenderResearchMgr, IsValid, h, pure, Except.pure]

theorem ShutdownModule_eq (w : World) :
    ShutdownModule w = .ok
      { w with trace := w.trace ++ [.UnregisterVolumeTrackHandler]
          ++ releaseIfSet .FVdbRendering w.Module.VdbRenderExtension
          ++ releaseIfSet .FVdbResearchRendering w.Module.VdbRenderResearchMgr } := by
  rcases w with ⟨⟨r, s⟩, n, t⟩
  cases r <;> cases s <;>
    simp [ShutdownModule, IsValid, callRelease, World.emit, releaseIfSet,
      bind, Except.bind, pure, Except.pure]

/-! ### Traces -/

theorem constructed_append (c : ExtensionClass) (t u : List Event) :
    constructed c (t ++ u) = constructed c t ++ constructed c u := by
  simp [constructed, List.filterMap_append]

theorem initCalls_append (c : ExtensionClass) (t u : List Event) :
    initCalls c (t ++ u) = initCalls c t ++ initCalls c u := by
  simp [initCalls, List.filterMap_append]

theorem releaseCalls_append (c : ExtensionClass) (t u : List Event) :
    releaseCalls c (t ++ u) = releaseCalls c t ++ releaseCalls c u := by
  simp [releaseCalls, List.filterMap_append]

theorem mem_initCalls (c : ExtensionClass) (h : Handle) (t : List Event) :
    h ∈ initCalls c t ↔ Event.Init c h ∈ t := by
  induction t with
  | nil => simp [initCalls]
  | cons e t ih =>
    have hcons : initCalls c (e :: t) = initCalls c [e] ++ initCalls c t :=
      initCalls_append c [e] t
    rw [hcons, List.mem_append, ih, List.mem_cons]
    cases e with
    | Init c1 h1 =>
      by_cases hc : c1 = c
      · subst hc
        simp [initCalls, eq_comm]
      · have hc2 : ¬ c = c1 := fun h2 => hc h2.symm
        simp [initCalls, hc, hc2]
    | _ => simp [initCalls]

theorem initsOn_eq_count (h : Handle) (t : List Event) :
    initsOn h t = (initCalls .FVdbRendering t).count h
      + (initCalls .FVdbResearchRendering t).count h := by
  induction t with
  | nil => simp [initsOn, initCalls]
  | cons e t ih =>
    have h1 := initCalls_append .FVdbRendering [e] t
    have h2 := initCalls_append .FVdbResearchRendering [e] t
    simp only [List.singleton_append] at h1 h2
    rw [h1, h2, List.count_append, List.count_append]
    have h3 : initsOn h (e :: t) = initsOn h [e] + initsOn h t := by
      simp only [initsOn]
      rw [← List.countP_append]
      rfl
    rw [h3, ih]
    have h4 : initsOn h [e] = (initCalls .FVdbRendering [e]).count h
        + (initCalls .FVdbResearchRendering [e]).count h := by
      cases e with
      | Init c1 x =>
        by_cases hx : x = h
        · cases c1 <;> simp [initsOn, initCalls, hx]
        · have hx2 : ¬ h = x := fun h5 => hx h5.symm
          cases c1 <;> simp [initsOn, initCalls, hx, hx2, List.count_singleton]
      | _ => simp [initsOn, initCalls]
    omega

theorem releaseAfterInit_nil : ReleaseAfterInit [] := by
  intro pre c h hp
  have := List.eq_nil_of_prefix_nil hp
  simp at this

theorem releaseAfterInit_snoc (t : List Event) (e : Event) (ht : ReleaseAfterInit t)
    (he : ∀ c h, e = Event.Release c h → Event.Init c h ∈ t) :
    ReleaseAfterInit (t ++ [e]) := by
  intro pre c h hp
  obtain ⟨s, hs⟩ := hp
  rcases List.eq_nil_or_concat s with hnil | ⟨s1, e1, hcat⟩
  · subst hnil
    rw [List.append_nil] at hs
    have hinj := List.append_inj' hs rfl
    have he1 : e = Event.Release c h := by
      have := hinj.2
      simp at this
      exact this.symm
    rw [hinj.1]
    exact he c h he1
  · subst hcat
    rw [List.concat_eq_append, ← List.append_assoc] at hs
    have hinj := List.append_inj' hs rfl
    exact ht pre c h ⟨s1, hinj.1⟩

/-! ### Closed forms and reachable states -/

theorem reachable_freshWorld : Reachable freshWorld := by
  refine ⟨?_, ?_, ?_, releaseAfterInit_nil⟩
  · intro c _
    simp [freshWorld, constructed, initCalls]
  · intro c h hc
    cases c <;> simp [freshWorld, FVolumeRuntimeModule.pointerTo] at hc
  · intro a b ha
    simp [freshWorld] at ha

theorem reachable_GetOrCreateRenderExtension (w : World) (hw : Reachable w) :
    ∃ p w1, GetOrCreateRenderExtension w = .ok (p, w1) ∧ Reachable w1 := by
  cases hr : w.Module.VdbRenderExtension with
  | some x => exact ⟨_, _, GetOrCreateRenderExtension_set w x hr, hw⟩
  | none =>
    refine ⟨_, _, GetOrCreateRenderExtension_null w hr, ?_, ?_, ?_, ?_⟩
    · intro c hc
      cases c with
      | FVdbRendering => simp [FVolumeRuntimeModule.pointerTo] at hc
      | FVdbResearchRendering =>
        have h0 := hw.unset .FVdbResearchRendering hc
        simp only [constructed_append, initCalls_append, h0.1, h0.2]
        simp [constructed, initCalls]
    · intro c h hc
      cases c with
      | FVdbRendering =>
        have h0 := hw.unset .FVdbRendering hr
        simp only [FVolumeRuntimeModule.pointerTo, Option.some.injEq] at hc
        subst hc
        simp only [constructed_append, initCalls_append, h0.1, h0.2]
        simp [constructed, initCalls]
      | FVdbResearchRendering =>
        have h0 := hw.set .FVdbResearchRendering h hc
        simp only [constructed_append, initCalls_append, h0.1, h0.2.1]
        refine ⟨by simp [constructed], by simp [initCalls], ?_⟩
        exact Nat.lt_succ_of_lt h0.2.2
    · intro a b ha hb
      simp only [Option.some.injEq] at ha
      have h0 : b < w.nextHandle := (hw.set .FVdbResearchRendering b hb).2.2
      rw [← ha]
      exact Nat.ne_of_gt h0
    · have h1 : w.trace ++ [Event.NewExtension .FVdbRendering w.nextHandle,
          Event.Init .FVdbRendering w.nextHandle]
          = (w.trace ++ [Event.NewExtension .FVdbRendering w.nextHandle])
            ++ [Event.Init .FVdbRendering w.nextHandle] := by simp
      show ReleaseAfterInit (w.trace ++ [Event.NewExtension .FVdbRendering w.nextHandle,
          Event.Init .FVdbRendering w.nextHandle])
      rw [h1]
      refine releaseAfterInit_snoc _ _ (releaseAfterInit_snoc _ _ hw.ordered ?_) ?_
      · intro c h he
        cases he
      · intro c h he
        cases he

theorem reachable_GetOrCreateRenderResearchMgr (w : World) (hw : Reachable w) :
    ∃ p w1, GetOrCreateRenderResearchMgr w = .ok (p, w1) ∧ Reachable w1 := by
  cases hr : w.Module.VdbRenderResearchMgr with
  | some x => exact ⟨_, _, GetOrCreateRenderResearchMgr_set w x hr, hw⟩
  | none =>
    refine ⟨_, _, GetOrCreateRenderResearchMgr_null w hr, ?_, ?_, ?_, ?_⟩
    · intro c hc
      cases c with
      | FVdbResearchRendering => simp [FVolumeRuntimeModule.pointerTo] at hc
      | FVdbRendering =>
        have h0 := hw.unset .FVdbRendering hc
        simp only [constructed_append, initCalls_append, h0.1, h0.2]
        simp [constructed, initCalls]
    · intro c h hc
      cases c with
      | FVdbResearchRendering =>
        have h0 := hw.unset .FVdbResearchRendering hr
        simp only [FVolumeRuntimeModule.pointerTo, Option.some.injEq] at hc
        subst hc
        simp only [constructed_append, initCalls_append, h0.1, h0.2]
        simp [constructed, initCalls]
      | FVdbRendering =>
        have h0 := hw.set .FVdbRendering h hc
        simp only [constructed_append, initCalls_append, h0.1, h0.2.1]
        refine ⟨by simp [constructed], by simp [initCalls], ?_⟩
        exact Nat.lt_succ_of_lt h0.2.2
    · intro a b ha hb
      simp only [Option.some.injEq] at hb
      have h0 : a < w.nextHandle := (hw.set .FVdbRendering a ha).2.2
      rw [← hb]
      exact Nat.ne_of_lt h0
    · have h1 : w.trace ++ [Event.NewExtension .FVdbResearchRendering w.nextHandle,
          Event.Init .FVdbResearchRendering w.nextHandle]
          = (w.trace ++ [Event.NewExtension .FVdbResearchRendering w.nextHandle])
            ++ [Event.Init .FVdbResearchRendering w.nextHandle] := by simp
      show ReleaseAfterInit (w.trace ++
          [Event.NewExtension .FVdbResearchRendering w.nextHandle,
           Event.Init .FVdbResearchRendering w.nextHandle])
      rw [h1]
      refine releaseAfterInit_snoc _ _ (releaseAfterInit_snoc _ _ hw.ordered ?_) ?_
      · intro c h he
        cases he
      · intro c h he
        cases he

theorem releaseAfterInit_releaseIfSet (t : List Event) (c : ExtensionClass)
    (p : Option Handle) (ht : ReleaseAfterInit t)
    (hp : ∀ h, p = some h → Event.Init c h ∈ t) :
    ReleaseAfterInit (t ++ releaseIfSet c p) := by
  cases p with
  | none => simpa [releaseIfSet] using ht
  | some h =>
    refine releaseAfterInit_snoc t _ ht ?_
    intro c1 h1 he
    cases he
    exact hp h rfl

theorem reachable_ShutdownModule (w : World) (hw : Reachable w) :
    ∃ w1, ShutdownModule w = .ok w1 ∧ Reachable w1 := by
  refine ⟨_, ShutdownModule_eq w, ?_, ?_, hw.distinct, ?_⟩
  · intro c hc
    have h0 := hw.unset c hc
    simp only [constructed_append, initCalls_append, h0.1, h0.2]
    cases w.Module.VdbRenderExtension <;> cases w.Module.VdbRenderResearchMgr <;>
      simp [constructed, initCalls, releaseIfSet]
  · intro c h hc
    have h0 := hw.set c h hc
    simp only [constructed_append, initCalls_append, h0.1, h0.2.1]
    refine ⟨?_, ?_, h0.2.2⟩ <;>
    cases w.Module.VdbRenderExtension <;> cases w.Module.VdbRenderResearchMgr <;>
      simp [constructed, initCalls, releaseIfSet]
  · show ReleaseAfterInit (w.trace ++ [Event.UnregisterVolumeTrackHandler]
        ++ releaseIfSet .FVdbRendering w.Module.VdbRenderExtension
        ++ releaseIfSet .FVdbResearchRendering w.Module.VdbRenderResearchMgr)
    have hinit : ∀ c h, w.Module.pointerTo c = some h → Event.Init c h ∈ w.trace := by
      intro c h hc
      have h0 := hw.set c h hc
      rw [← mem_initCalls, h0.2.1]
      simp
    refine releaseAfterInit_releaseIfSet _ _ _
      (releaseAfterInit_releaseIfSet _ _ _
        (releaseAfterInit_snoc _ _ hw.ordered ?_) ?_) ?_
    · intro c h he
      cases he
    · intro h hp
      have := hinit .FVdbRendering h hp
      simp [this]
    · intro h hp
      have := hinit .FVdbResearchRendering h hp
      simp [this]

theorem reachable_runCalls (calls : List Call) (w : World) (hw : Reachable w) :
    ∃ w1, runCalls calls w = .ok w1 ∧ Reachable w1 := by
  induction calls generalizing w with
  | nil => exact ⟨w, rfl, hw⟩
  | cons c cs ih =>
    have hstep : ∃ w1, execCall c w = .ok w1 ∧ Reachable w1 := by
      cases c with
      | GetOrCreateRenderExtension =>
        obtain ⟨p, w1, h1, h2⟩ := reachable_GetOrCreateRenderExtension w hw
        exact ⟨w1, by simp [execCall, h1, Except.map], h2⟩
      | GetOrCreateRenderResearchMgr =>
        obtain ⟨p, w1, h1, h2⟩ := reachable_GetOrCreateRenderResearchMgr w hw
        exact ⟨w1, by simp [execCall, h1, Except.map], h2⟩
      | ShutdownModule => exact reachable_ShutdownModule w hw
    obtain ⟨w1, h1, h2⟩ := hstep
    obtain ⟨w2, h3, h4⟩ := ih w1 h2
    exact ⟨w2, by simp [runCalls, h1, h3], h4⟩

theorem callRepeatedly_set (f : World → Except Fault (Option Handle × World))
    (w : World) (p : Option Handle) (hf : f w = .ok (p, w)) (n : Nat) :
    callRepeatedly f n w = .ok (List.replicate n p, w) := by
  induction n with
  | zero => rfl
  | succ n ih => simp [callRepeatedly, hf, ih, List.replicate_succ]

theorem callRepeatedly_first (f : World → Except Fault (Option Handle × World))
    (w w1 : World) (p : Option Handle) (hw : f w = .ok (p, w1)) (hf : f w1 = .ok (p, w1))
    (n : Nat) : callRepeatedly f (n + 1) w = .ok (List.replicate (n + 1) p, w1) := by
  simp [callRepeatedly, hw, callRepeatedly_set f w1 p hf n, List.replicate_succ]

/-! ### Module life cycle: the claims -/

/-- Claim C1. Starting from a module whose extension pointer is null, `N ≥ 1` consecutive
calls of the accessor all return the same (newly allocated) instance, and the state after
the `N` calls is the state after the first call: the trace has grown by exactly one
`NewExtension` and one `Init` on that instance, both made by the first call.  This holds
for `GetOrCreateRenderExtension` and for `GetOrCreateRenderResearchMgr`. -/
theorem getOrCreate_same_instance_single_init (w : World) (N : Nat) (hN : 1 ≤ N) :
    (w.Module.VdbRenderExtension = none →
      ∃ w1, GetOrCreateRenderExtension w = .ok (some w.nextHandle, w1) ∧
        callRepeatedly GetOrCreateRenderExtension N w
          = .ok (List.replicate N (some w.nextHandle), w1) ∧
        w1.trace = w.trace ++ [Event.NewExtension .FVdbRendering w.nextHandle,
                               Event.Init .FVdbRendering w.nextHandle]) ∧
    (w.Module.VdbRenderResearchMgr = none →
      ∃ w1, GetOrCreateRenderResearchMgr w = .ok (some w.nextHandle, w1) ∧
        callRepeatedly GetOrCreateRenderResearchMgr N w
          = .ok (List.replicate N (some w.nextHandle), w1) ∧
        w1.trace = w.trace ++ [Event.NewExtension .FVdbResearchRendering w.nextHandle,
                               Event.Init .FVdbResearchRendering w.nextHandle]) := by
  obtain ⟨n, rfl⟩ : ∃ n, N = n + 1 := ⟨N - 1, by omega⟩
  constructor
  · intro hr
    have h1 := GetOrCreateRenderExtension_null w hr
    exact ⟨_, h1, callRepeatedly_first _ w _ _ h1
      (GetOrCreateRenderExtension_set _ w.nextHandle rfl) n, rfl⟩
  · intro hr
    have h1 := GetOrCreateRenderResearchMgr_null w hr
    exact ⟨_, h1, callRepeatedly_first _ w _ _ h1
      (GetOrCreateRenderResearchMgr_set _ w.nextHandle rfl) n, rfl⟩

/-- Three calls of each accessor on a freshly constructed module. -/
theorem getOrCreate_same_instance_single_init_witness :
    1 ≤ 3 ∧
    (∃ w1, GetOrCreateRenderExtension freshWorld = .ok (some 0, w1) ∧
      callRepeatedly GetOrCreateRenderExtension 3 freshWorld
        = .ok ([some 0, some 0, some 0], w1) ∧
      w1.trace = [Event.NewExtension .FVdbRendering 0, Event.Init .FVdbRendering 0]) ∧
    (∃ w1, GetOrCreateRenderResearchMgr freshWorld = .ok (some 0, w1) ∧
      callRepeatedly GetOrCreateRenderResearchMgr 3 freshWorld
        = .ok ([some 0, some 0, some 0], w1) ∧
      w1.trace = [Event.NewExtension .FVdbResearchRendering 0,
                  Event.Init .FVdbResearchRendering 0]) :=
  ⟨by decide,
   (getOrCreate_same_instance_single_init freshWorld 3 (by decide)).1 rfl,
   (getOrCreate_same_instance_single_init freshWorld 3 (by decide)).2 rfl⟩

/-- Claim C2. `ShutdownModule` never faults.  The calls it adds to the trace contain
`Release` on the render extension exactly when `VdbRenderExtension` is set (and then on
the object it points to, once), `Release` on the research extension exactly when
`VdbRenderResearchMgr` is set, and no `Release` at all when both pointers are null. -/
theorem ShutdownModule_releases_what_is_set (w : World) :
    ∃ w1 added, ShutdownModule w = .ok w1 ∧ w1.trace = w.trace ++ added ∧
      (∀ h, Event.Release .FVdbRendering h ∈ added ↔
        w.Module.VdbRenderExtension = some h) ∧
      (∀ h, Event.Release .FVdbResearchRendering h ∈ added ↔
        w.Module.VdbRenderResearchMgr = some h) ∧
      (releaseCalls .FVdbRendering added).length ≤ 1 ∧
      (releaseCalls .FVdbResearchRendering added).length ≤ 1 ∧
      (w.Module.VdbRenderExtension = none → w.Module.VdbRenderResearchMgr = none →
        ∀ c h, Event.Release c h ∉ added) := by
  refine ⟨_, [Event.UnregisterVolumeTrackHandler]
      ++ releaseIfSet .FVdbRendering w.Module.VdbRenderExtension
      ++ releaseIfSet .FVdbResearchRendering w.Module.VdbRenderResearchMgr,
    ShutdownModule_eq w, by simp, ?_, ?_, ?_, ?_, ?_⟩
  · intro h
    cases w.Module.VdbRenderExtension <;> cases w.Module.VdbRenderResearchMgr <;>
      simp [releaseIfSet, eq_comm]
  · intro h
    cases w.Module.VdbRenderExtension <;> cases w.Module.VdbRenderResearchMgr <;>
      simp [releaseIfSet, eq_comm]
  · cases w.Module.VdbRenderExtension <;> cases w.Module.VdbRenderResearchMgr <;>
      simp [releaseIfSet, releaseCalls]
  · cases w.Module.VdbRenderExtension <;> cases w.Module.VdbRenderResearchMgr <;>
      simp [releaseIfSet, releaseCalls]
  · intro h1 h2 c h
    simp [h1, h2, releaseIfSet]

/-- Shutting down a module whose accessors were never called only unregisters the track
handler. -/
theorem ShutdownModule_releases_what_is_set_witness :
    ∃ w1, ShutdownModule freshWorld = .ok w1 ∧
      ∀ c h, Event.Release c h ∉ w1.trace := by
  obtain ⟨w1, added, h1, h2, _, _, _, _, h3⟩ := ShutdownModule_releases_what_is_set freshWorld
  refine ⟨w1, h1, ?_⟩
  intro c h
  rw [h2]
  simpa [freshWorld] using h3 rfl rfl c h

/-- Claim C8. `GetOrCreateRenderExtension` leaves `VdbRenderResearchMgr` unchanged and
adds no construction, `Init` or `Release` of class `FVdbResearchRendering`; the events on
the object the research pointer refers to are unchanged.  The same holds with the two
extensions exchanged.  Whatever calls are made on a freshly constructed module, at most
one object of each class is ever constructed. -/
theorem extensions_share_no_module_state (w : World) (calls : List Call) :
    (∃ p w1, GetOrCreateRenderExtension w = .ok (p, w1) ∧
      w1.Module.VdbRenderResearchMgr = w.Module.VdbRenderResearchMgr ∧
      constructed .FVdbResearchRendering w1.trace
        = constructed .FVdbResearchRendering w.trace ∧
      initCalls .FVdbResearchRendering w1.trace
        = initCalls .FVdbResearchRendering w.trace ∧
      releaseCalls .FVdbResearchRendering w1.trace
        = releaseCalls .FVdbResearchRendering w.trace ∧
      (∀ h, w.Module.VdbRenderResearchMgr = some h → h < w.nextHandle →
        eventsOn h w1.trace = eventsOn h w.trace)) ∧
    (∃ p w1, GetOrCreateRenderResearchMgr w = .ok (p, w1) ∧
      w1.Module.VdbRenderExtension = w.Module.VdbRenderExtension ∧
      constructed .FVdbRendering w1.trace = constructed .FVdbRendering w.trace ∧
      initCalls .FVdbRendering w1.trace = initCalls .FVdbRendering w.trace ∧
      releaseCalls .FVdbRendering w1.trace = releaseCalls .FVdbRendering w.trace ∧
      (∀ h, w.Module.VdbRenderExtension = some h → h < w.nextHandle →
        eventsOn h w1.trace = eventsOn h w.trace)) ∧
    (∃ w2, runCalls calls freshWorld = .ok w2 ∧
      ∀ c, (constructed c w2.trace).length ≤ 1) := by
  refine ⟨?_, ?_, ?_⟩
  · cases hr : w.Module.VdbRenderExtension with
    | some x =>
      exact ⟨_, _, GetOrCreateRenderExtension_set w x hr, rfl, rfl, rfl, rfl,
        fun _ _ _ => rfl⟩
    | none =>
      refine ⟨_, _, GetOrCreateRenderExtension_null w hr, rfl, ?_, ?_, ?_, ?_⟩
      · simp [constructed_append, constructed]
      · simp [initCalls_append, initCalls]
      · simp [releaseCalls_append, releaseCalls]
      · intro h _ hlt
        have hne : ¬ w.nextHandle = h := Nat.ne_of_gt hlt
        simp [eventsOn, List.filter_append, Event.object, hne]
  · cases hr : w.Module.VdbRenderResearchMgr with
    | some x =>
      exact ⟨_, _, GetOrCreateRenderResearchMgr_set w x hr, rfl, rfl, rfl, rfl,
        fun _ _ _ => rfl⟩
    | none =>
      refine ⟨_, _, GetOrCreateRenderResearchMgr_null w hr, rfl, ?_, ?_, ?_, ?_⟩
      · simp [constructed_append, constructed]
      · simp [initCalls_append, initCalls]
      · simp [releaseCalls_append, releaseCalls]
      · intro h _ hlt
        have hne : ¬ w.nextHandle = h := Nat.ne_of_gt hlt
        simp [eventsOn, List.filter_append, Event.object, hne]
  · obtain ⟨w2, h1, h2⟩ := reachable_runCalls calls freshWorld reachable_freshWorld
    refine ⟨w2, h1, ?_⟩
    intro c
    cases hp : w2.Module.pointerTo c with
    | none => simp [(h2.unset c hp).1]
    | some h => simp [(h2.set c h hp).1]

/-- A module that holds a research extension (object `0`) and no render extension:
creating the render extension allocates object `1` and leaves object `0` alone. -/
theorem extensions_share_no_module_state_witness :
    ∃ p w1,
      GetOrCreateRenderExtension
        { Module := { VdbRenderExtension := none, VdbRenderResearchMgr := some 0 },
          nextHandle := 1,
          trace := [Event.NewExtension .FVdbResearchRendering 0,
                    Event.Init .FVdbResearchRendering 0] } = .ok (p, w1) ∧
      w1.Module.VdbRenderResearchMgr = some 0 ∧
      eventsOn 0 w1.trace = [Event.NewExtension .FVdbResearchRendering 0,
                             Event.Init .FVdbResearchRendering 0] := by
  obtain ⟨p, w1, h1, h2, _, _, _, h3⟩ :=
    (extensions_share_no_module_state
      { Module := { VdbRenderExtension := none, VdbRenderResearchMgr := some 0 },
        nextHandle := 1,
        trace := [Event.NewExtension .FVdbResearchRendering 0,
                  Event.Init .FVdbResearchRendering 0] }
      [Call.GetOrCreateRenderResearchMgr, Call.GetOrCreateRenderExtension]).1
  exact ⟨p, w1, h1, h2, (h3 0 rfl (by decide)).trans (by decide)⟩

/-- Claim C9. Every finite sequence of calls of `GetOrCreateRenderExtension`,
`GetOrCreateRenderResearchMgr` and `ShutdownModule` on a freshly constructed module runs
without fault, and in the resulting trace `Init` is called at most once through each
class of pointer and at most once on each object, and every `Release` on an object comes
after an `Init` on that object. -/
theorem lifecycle_respected (calls : List Call) :
    ∃ w, runCalls calls freshWorld = .ok w ∧
      (∀ c, (initCalls c w.trace).length ≤ 1) ∧
      (∀ h, initsOn h w.trace ≤ 1) ∧
      (∀ (pre : List Event) (c : ExtensionClass) (h : Handle),
        pre ++ [Event.Release c h] <+: w.trace → Event.Init c h ∈ pre) := by
  obtain ⟨w, h1, h2⟩ := reachable_runCalls calls freshWorld reachable_freshWorld
  have hlen : ∀ c, (initCalls c w.trace).length ≤ 1 := by
    intro c
    cases hp : w.Module.pointerTo c with
    | none => simp [(h2.unset c hp).2]
    | some h => simp [(h2.set c h hp).2.1]
  refine ⟨w, h1, hlen, ?_, h2.ordered⟩
  intro h
  rw [initsOn_eq_count]
  cases hr : w.Module.VdbRenderExtension with
  | none =>
    have h3 := (h2.unset .FVdbRendering hr).2
    have h4 := hlen .FVdbResearchRendering
    have h5 := List.count_le_length h (initCalls .FVdbResearchRendering w.trace)
    rw [h3]
    simp only [List.count_nil]
    omega
  | some a =>
    have h3 := (h2.set .FVdbRendering a hr).2.1
    cases hs : w.Module.VdbRenderResearchMgr with
    | none =>
      have h4 := (h2.unset .FVdbResearchRendering hs).2
      rw [h3, h4]
      have := List.count_le_length h [a]
      simpa using this
    | some b =>
      have h4 := (h2.set .FVdbResearchRendering b hs).2.1
      have hab := h2.distinct a b hr hs
      rw [h3, h4, List.count_singleton, List.count_singleton]
      by_cases ha : a = h
      · have hb : ¬ b = h := fun hb => hab (ha.trans hb.symm)
        simp [ha, hb]
      · simp [ha]
        split <;> omega

/-- Create both extensions, shut down twice, ask for the render extension again: object
`0` and object `1` are each initialised once, before they are released. -/
theorem lifecycle_respected_witness :
    ∃ w, runCalls [Call.GetOrCreateRenderExtension, Call.GetOrCreateRenderResearchMgr,
        Call.ShutdownModule, Call.ShutdownModule, Call.GetOrCreateRenderExtension]
        freshWorld = .ok w ∧
      initsOn 0 w.trace ≤ 1 ∧ initsOn 1 w.trace ≤ 1 ∧
      w.trace = [Event.NewExtension .FVdbRendering 0, Event.Init .FVdbRendering 0,
        Event.NewExtension .FVdbResearchRendering 1, Event.Init .FVdbResearchRendering 1,
        Event.UnregisterVolumeTrackHandler,
        Event.Release .FVdbRendering 0, Event.Release .FVdbResearchRendering 1,
        Event.UnregisterVolumeTrackHandler,
        Event.Release .FVdbRendering 0, Event.Release .FVdbResearchRendering 1] := by
  obtain ⟨w, h1, _, h2, _⟩ := lifecycle_respected
    [Call.GetOrCreateRenderExtension, Call.GetOrCreateRenderResearchMgr,
     Call.ShutdownModule, Call.ShutdownModule, Call.GetOrCreateRenderExtension]
  refine ⟨w, h1, h2 0, h2 1, ?_⟩
  have h3 : runCalls [Call.GetOrCreateRenderExtension, Call.GetOrCreateRenderResearchMgr,
      Call.ShutdownModule, Call.ShutdownModule, Call.GetOrCreateRenderExtension]
      freshWorld = .ok
        { Module := { VdbRenderExtension := some 0, VdbRenderResearchMgr := some 1 },
          nextHandle := 2,
          trace := [Event.NewExtension .FVdbRendering 0, Event.Init .FVdbRendering 0,
            Event.NewExtension .FVdbResearchRendering 1,
            Event.Init .FVdbResearchRendering 1,
            Event.UnregisterVolumeTrackHandler,
            Event.Release .FVdbRendering 0, Event.Release .FVdbResearchRendering 1,
            Event.UnregisterVolumeTrackHandler,
            Event.Release .FVdbRendering 0, Event.Release .FVdbResearchRendering 1] } :=
    rfl
  rw [h3] at h1
  cases h1
  rfl

/-- Claim C10. `ShutdownModule` leaves the stored pointers as they are: when an
extension has been created, `ShutdownModule` calls `Release` on it once, and the next
call of its accessor returns that same object and changes nothing, so no object is
constructed and `Init` is not called. -/
theorem accessor_after_shutdown_returns_released_instance (w : World) (h : Handle) :
    (w.Module.VdbRenderExtension = some h →
      ∃ w1, ShutdownModule w = .ok w1 ∧
        w1.Module.VdbRenderExtension = some h ∧
        releaseCalls .FVdbRendering w1.trace
          = releaseCalls .FVdbRendering w.trace ++ [h] ∧
        GetOrCreateRenderExtension w1 = .ok (some h, w1)) ∧
    (w.Module.VdbRenderResearchMgr = some h →
      ∃ w1, ShutdownModule w = .ok w1 ∧
        w1.Module.VdbRenderResearchMgr = some h ∧
        releaseCalls .FVdbResearchRendering w1.trace
          = releaseCalls .FVdbResearchRendering w.trace ++ [h] ∧
        GetOrCreateRenderResearchMgr w1 = .ok (some h, w1)) := by
  constructor
  · intro hr
    refine ⟨_, ShutdownModule_eq w, hr, ?_, GetOrCreateRenderExtension_set _ h hr⟩
    simp only [releaseCalls_append, hr]
    cases w.Module.VdbRenderResearchMgr <;> simp [releaseCalls, releaseIfSet]
  · intro hr
    refine ⟨_, ShutdownModule_eq w, hr, ?_, GetOrCreateRenderResearchMgr_set _ h hr⟩
    simp only [releaseCalls_append, hr]
    cases w.Module.VdbRenderExtension <;> simp [releaseCalls, releaseIfSet]

/-- A module whose render extension is object `0`: after `ShutdownModule` the accessor
still returns object `0`. -/
theorem accessor_after_shutdown_returns_released_instance_witness :
    ∃ w1,
      ShutdownModule
        { Module := { VdbRenderExtension := some 0, VdbRenderResearchMgr := none },
          nextHandle := 1,
          trace := [Event.NewExtension .FVdbRendering 0,
                    Event.Init .FVdbRendering 0] } = .ok w1 ∧
      w1.Module.VdbRenderExtension = some 0 ∧
      releaseCalls .FVdbRendering w1.trace = [] ++ [0] ∧
      GetOrCreateRenderExtension w1 = .ok (some 0, w1) :=
  (accessor_after_shutdown_returns_released_instance
    { Module := { VdbRenderExtension := some 0, VdbRenderResearchMgr := none },
      nextHandle := 1,
      trace := [Event.NewExtension .FVdbRendering 0,
                Event.Init .FVdbRendering 0] } 0).1 rfl

/-! ### Scene proxy -/

section ProxyTheorems

variable {float FVector3f FMatrix44f : Type}

theorem findFrom_eq_INDEX_NONE_or_nonneg {α : Type} [DecidableEq α] (Item : α)
    (xs : List α) (i : Nat) :
    TArray.findFrom Item xs i = INDEX_NONE ∨ 0 ≤ TArray.findFrom Item xs i := by
  induction xs generalizing i with
  | nil => exact Or.inl rfl
  | cons x xs ih =>
    by_cases hx : x = Item
    · right
      simp [TArray.findFrom, hx]
    · simpa [TArray.findFrom, hx] using ih (i + 1)

theorem findFrom_ne_INDEX_NONE_iff {α : Type} [DecidableEq α] (Item : α) (xs : List α)
    (i : Nat) : TArray.findFrom Item xs i ≠ INDEX_NONE ↔ Item ∈ xs := by
  induction xs generalizing i with
  | nil => simp [TArray.findFrom]
  | cons x xs ih =>
    by_cases hx : x = Item
    · have hne : (i : Int) ≠ INDEX_NONE := by
        simp only [INDEX_NONE]
        omega
      simp [TArray.findFrom, hx, hne]
    · have hx2 : ¬ Item = x := fun h => hx h.symm
      simp [TArray.findFrom, hx, hx2, ih (i + 1)]

theorem IsVisible_iff (p : FVdbSceneProxy float FVector3f FMatrix44f)
    (View : FSceneViewPtr) :
    (p.IsVisible View).1 = true ↔ View ∈ p.VisibleViews.Data := by
  simp only [FVdbSceneProxy.IsVisible, TArray.Find, bne_iff_ne]
  exact findFrom_ne_INDEX_NONE_iff View p.VisibleViews.Data 0

theorem GetViewRelevance_visible
    (shouldDraw : FVdbSceneProxy float FVector3f FMatrix44f → FSceneViewPtr → Bool)
    (p : FVdbSceneProxy float FVector3f FMatrix44f) (View V : FSceneViewPtr) :
    V ∈ (p.GetViewRelevance shouldDraw View).2.VisibleViews.Data ↔
      V ∈ p.VisibleViews.Data ∨
        (V = View ∧ (p.GetViewRelevance shouldDraw View).1.bDrawRelevance = true) := by
  cases hs : shouldDraw p View <;>
    simp [FVdbSceneProxy.GetViewRelevance, hs, TArray.Add]

theorem relevancePass_visible
    (shouldDraw : FVdbSceneProxy float FVector3f FMatrix44f → FSceneViewPtr → Bool)
    (p : FVdbSceneProxy float FVector3f FMatrix44f) (Views : List FSceneViewPtr)
    (V : FSceneViewPtr) :
    V ∈ (relevancePass shouldDraw p Views).2.VisibleViews.Data ↔
      V ∈ p.VisibleViews.Data ∨
        ∃ r, (V, r) ∈ (relevancePass shouldDraw p Views).1 ∧ r.bDrawRelevance = true := by
  induction Views generalizing p with
  | nil => simp [relevancePass]
  | cons View Views ih =>
    simp only [relevancePass, List.mem_cons, Prod.mk.injEq]
    rw [ih, GetViewRelevance_visible]
    constructor
    · rintro ((h | ⟨h1, h2⟩) | ⟨r, h1, h2⟩)
      · exact Or.inl h
      · exact Or.inr ⟨_, Or.inl ⟨h1, rfl⟩, h2⟩
      · exact Or.inr ⟨r, Or.inr h1, h2⟩
    · rintro (h | ⟨r, (⟨h1, h2⟩ | h1), h3⟩)
      · exact Or.inl (Or.inl h)
      · subst h2
        exact Or.inl (Or.inr ⟨h1, h3⟩)
      · exact Or.inr ⟨r, h1, h3⟩

/-- Claim C3. After `Update(T, min, size, buf)` the getters `GetIndexToLocal`,
`GetIndexMin`, `GetIndexSize` and `GetRenderResource` return exactly `T`, `min`, `size`
and `buf`. -/
theorem Update_then_getters (p : FVdbSceneProxy float FVector3f FMatrix44f)
    (T : FMatrix44f) (min size : FVector3f) (buf : Option Handle) :
    (p.Update T min size buf).GetIndexToLocal = T ∧
    (p.Update T min size buf).GetIndexMin = min ∧
    (p.Update T min size buf).GetIndexSize = size ∧
    (p.Update T min size buf).GetRenderResource = buf :=
  ⟨rfl, rfl, rfl, rfl⟩

/-- Claim C4. After `ResetVisibility` the array `VisibleViews` is empty and `IsVisible`
returns `false` for every view, whatever `VisibleViews` held before. -/
theorem ResetVisibility_clears (p : FVdbSceneProxy float FVector3f FMatrix44f)
    (V : FSceneViewPtr) :
    p.ResetVisibility.VisibleViews.Data = [] ∧ (p.ResetVisibility.IsVisible V).1 = false := by
  have h1 : p.ResetVisibility.VisibleViews.Data = [] := rfl
  refine ⟨h1, ?_⟩
  cases hv : (p.ResetVisibility.IsVisible V).1 with
  | false => rfl
  | true =>
    have := (IsVisible_iff p.ResetVisibility V).1 hv
    rw [h1] at this
    cases this

/-- Claim C5. `IsVisible(V)` returns `true` exactly when `V` is an element of
`VisibleViews`, however many times it occurs there, and leaves the proxy, `VisibleViews`
included, as it was. -/
theorem IsVisible_is_membership (p : FVdbSceneProxy float FVector3f FMatrix44f)
    (V : FSceneViewPtr) :
    ((p.IsVisible V).1 = true ↔ V ∈ p.VisibleViews.Data) ∧
    (p.IsVisible V).2 = p ∧
    (p.IsVisible V).2.VisibleViews = p.VisibleViews :=
  ⟨IsVisible_iff p V, rfl, rfl⟩

/-- Claim C6. After the visibility pass of a frame (`ResetVisibility`, then
`GetViewRelevance` for each view of the frame), `IsVisible(V)` is `true` exactly when
some call `GetViewRelevance(V)` of that pass returned a relevance with `bDrawRelevance`
set. -/
theorem visible_iff_relevant_this_frame
    (shouldDraw : FVdbSceneProxy float FVector3f FMatrix44f → FSceneViewPtr → Bool)
    (p : FVdbSceneProxy float FVector3f FMatrix44f) (Views : List FSceneViewPtr)
    (V : FSceneViewPtr) :
    ((visibilityPass shouldDraw p Views).2.IsVisible V).1 = true ↔
      ∃ r, (V, r) ∈ (visibilityPass shouldDraw p Views).1 ∧ r.bDrawRelevance = true := by
  rw [IsVisible_iff, visibilityPass, relevancePass_visible]
  have h1 : p.ResetVisibility.VisibleViews.Data = [] := rfl
  simp [h1]

/-- Claim C7. A proxy whose `RenderBuffer` is null emits no draw element: for every list
of views, visibility mask and collector, `GetDynamicMeshElements` returns without fault
and the collector is unchanged. -/
theorem GetDynamicMeshElements_without_buffer
    (p : FVdbSceneProxy float FVector3f FMatrix44f) (hp : p.RenderBuffer = none)
    (Views : List FSceneViewPtr) (VisibilityMap : Nat)
    (Collector : List (FMeshBatch float FVector3f FMatrix44f)) :
    p.GetDynamicMeshElements Views VisibilityMap Collector = .ok Collector := by
  simp [FVdbSceneProxy.GetDynamicMeshElements, FVdbSceneProxy.GetRenderResource, hp,
    pure, Except.pure]

end ProxyTheorems

/-- The proxy `proxyWithoutBuffer` asked for draw elements in both of its views. -/
theorem GetDynamicMeshElements_without_buffer_witness :
    proxyWithoutBuffer.RenderBuffer = none ∧
    proxyWithoutBuffer.GetDynamicMeshElements [some 1, some 2] 3 [] = .ok [] :=
  ⟨rfl, GetDynamicMeshElements_without_buffer proxyWithoutBuffer rfl [some 1, some 2] 3 []⟩

/-- A view that `VisibleViews` holds twice is visible, a view it does not hold is not. -/
theorem IsVisible_is_membership_witness :
    (proxyWithRepeatedView.IsVisible (some 1)).1 = true ∧
    (proxyWithRepeatedView.IsVisible (some 7)).1 = false ∧
    (proxyWithRepeatedView.IsVisible (some 1)).2 = proxyWithRepeatedView := by
  refine ⟨(IsVisible_is_membership proxyWithRepeatedView (some 1)).1.2 (by decide), ?_,
    (IsVisible_is_membership proxyWithRepeatedView (some 1)).2.1⟩
  cases hv : (proxyWithRepeatedView.IsVisible (some 7)).1 with
  | false => rfl
  | true =>
    have h := (IsVisible_is_membership proxyWithRepeatedView (some 7)).1.1 hv
    revert h
    decide

/-- A frame with views `1`, `2`, `3` in which view `2` is not relevant: the proxy, which
held views `1`, `2`, `1` from the frame before, ends up visible in `1` and `3` only. -/
theorem visible_iff_relevant_this_frame_witness :
    ((visibilityPass (fun _ v => v != some 2) proxyWithRepeatedView
        [some 1, some 2, some 3]).2.IsVisible (some 3)).1 = true ∧
    ((visibilityPass (fun _ v => v != some 2) proxyWithRepeatedView
        [some 1, some 2, some 3]).2.IsVisible (some 2)).1 = false := by
  constructor
  · exact (visible_iff_relevant_this_frame (fun _ v => v != some 2) proxyWithRepeatedView
      [some 1, some 2, some 3] (some 3)).2 ⟨⟨true⟩, by decide, rfl⟩
  · decide

end UnrealVdb
